import Mathlib

/-!
Shallow embedding of the FCS Field Monitor Assistant core
(category state machine, note store, inference-gateway retry wrapper),
translated from `src/types.ts`, `src/unnamed/part_000` (aiService),
`src/unnamed/part_001` (App) and `src/components/CategoryView.tsx` /
`src/components/Dashboard.tsx`.

The untyped `data: any` blob is modelled as a flat key/value record
(`JsonData`); timestamps (`Date.now()`) are modelled by an explicit
clock parameter `now : Nat`; the asynchronous inference backend is
modelled as an attempt-indexed stub `Nat → Except ApiError α`.
-/

namespace FCS

/-- `CategoryId` from `src/types.ts`: eight fixed identifiers. -/
inductive CategoryId where
  | project_details
  | env_safety
  | survey_inventory
  | site_recording
  | excavations
  | finds
  | condition_followup
  | additional_notes
deriving DecidableEq

/-- `CategoryStatus` from `src/types.ts`. -/
inductive CategoryStatus where
  | not_started
  | in_progress
  | complete
deriving DecidableEq

/-- `Note` from `src/types.ts`. -/
structure Note where
  id : String
  text : String
  timestamp : Nat
deriving DecidableEq

/-- The untyped `data: any` record, modelled as a flat key/value list;
`{}` is the empty list. -/
abbrev JsonData := List (String × String)

/-- `CategoryState` from `src/types.ts`. -/
structure CategoryState where
  id : CategoryId
  title : String
  status : CategoryStatus
  notes : List Note
  data : JsonData
  missingInfo : List String
deriving DecidableEq

/-- The total map `Record<CategoryId, CategoryState>`, one field per fixed key. -/
structure Categories where
  project_details : CategoryState
  env_safety : CategoryState
  survey_inventory : CategoryState
  site_recording : CategoryState
  excavations : CategoryState
  finds : CategoryState
  condition_followup : CategoryState
  additional_notes : CategoryState
deriving DecidableEq

/-- Indexing `prev.categories[id]`. -/
def Categories.get (c : Categories) : CategoryId → CategoryState
  | .project_details => c.project_details
  | .env_safety => c.env_safety
  | .survey_inventory => c.survey_inventory
  | .site_recording => c.site_recording
  | .excavations => c.excavations
  | .finds => c.finds
  | .condition_followup => c.condition_followup
  | .additional_notes => c.additional_notes

/-- The spread `{...prev.categories, [id]: newCategoryState}`. -/
def Categories.set (c : Categories) (i : CategoryId) (x : CategoryState) : Categories :=
  match i with
  | .project_details => { c with project_details := x }
  | .env_safety => { c with env_safety := x }
  | .survey_inventory => { c with survey_inventory := x }
  | .site_recording => { c with site_recording := x }
  | .excavations => { c with excavations := x }
  | .finds => { c with finds := x }
  | .condition_followup => { c with condition_followup := x }
  | .additional_notes => { c with additional_notes := x }

/-- `JobState` from `src/types.ts`. -/
structure JobState where
  categories : Categories
  isJobComplete : Bool
deriving DecidableEq

/-- One default category entry of `INITIAL_JOB_STATE` (App). -/
def initialCategory (i : CategoryId) (t : String) : CategoryState :=
  { id := i, title := t, status := .not_started, notes := [], data := [], missingInfo := [] }

/-- `INITIAL_JOB_STATE` from the App component (`src/unnamed/part_001`). -/
def INITIAL_JOB_STATE : JobState :=
  { isJobComplete := false
    categories :=
      { project_details := initialCategory .project_details "Project & Location"
        env_safety := initialCategory .env_safety "Env & Safety Conditions"
        survey_inventory := initialCategory .survey_inventory "Survey & Inventory"
        site_recording := initialCategory .site_recording "Site Recording"
        excavations := initialCategory .excavations "Excavations"
        finds := initialCategory .finds "Finds & Materials"
        condition_followup := initialCategory .condition_followup "Condition & Follow-up"
        additional_notes := initialCategory .additional_notes "Additional Notes" } }

/-- `Partial<CategoryState>`: a field is `some` exactly when the key is
present in the partial-update object. -/
structure CategoryUpdate where
  idField : Option CategoryId
  titleField : Option String
  statusField : Option CategoryStatus
  notesField : Option (List Note)
  dataField : Option JsonData
  missingInfoField : Option (List String)

/-- The shallow merge `{ ...prev.categories[id], ...updates }`. -/
def applyUpdate (c : CategoryState) (u : CategoryUpdate) : CategoryState :=
  { id := u.idField.getD c.id
    title := u.titleField.getD c.title
    status := u.statusField.getD c.status
    notes := u.notesField.getD c.notes
    data := u.dataField.getD c.data
    missingInfo := u.missingInfoField.getD c.missingInfo }

/-- A partial update touching only `status`. -/
def statusUpdate (st : CategoryStatus) : CategoryUpdate :=
  { idField := none, titleField := none, statusField := some st
    notesField := none, dataField := none, missingInfoField := none }

/-- `handleUpdateCategory` from the App component: shallow-merges the
partial update into the category and rebuilds the categories record;
the `...prev` spread keeps `isJobComplete` as it was. -/
def handleUpdateCategory (s : JobState) (i : CategoryId) (u : CategoryUpdate) : JobState :=
  { s with categories := s.categories.set i (applyUpdate (s.categories.get i) u) }

/-- `Object.values(jobState.categories)` in insertion order (Dashboard). -/
def categoriesList (c : Categories) : List CategoryState :=
  [c.project_details, c.env_safety, c.survey_inventory, c.site_recording,
   c.excavations, c.finds, c.condition_followup, c.additional_notes]

/-- Dashboard: `categories.filter(c => c.id !== 'additional_notes')`. -/
def requiredCategories (s : JobState) : List CategoryState :=
  (categoriesList s.categories).filter (fun c => c.id != CategoryId.additional_notes)

/-- Dashboard: `requiredCategories.every(c => c.status === 'complete')`. -/
def allComplete (s : JobState) : Bool :=
  (requiredCategories s).all (fun c => c.status == CategoryStatus.complete)

/-- Every entry of the categories record carries the id it is keyed by
(true of the initial state and preserved by every handler, which never
writes the `id` field). -/
def idsIntact (s : JobState) : Prop :=
  ∀ i : CategoryId, (s.categories.get i).id = i

/-- `addNote` from CategoryView: a new note with id `Date.now().toString()`
and timestamp `Date.now()` is pushed at the end; `data` is replaced
wholesale and `status` forced to `in_progress`. -/
def addNote (now : Nat) (cat : CategoryState) (text : String) (updatedData : JsonData) :
    CategoryState :=
  let newNote : Note := { id := toString now, text := text, timestamp := now }
  applyUpdate cat
    { idField := none, titleField := none
      statusField := some .in_progress
      notesField := some (cat.notes ++ [newNote])
      dataField := some updatedData
      missingInfoField := none }

/-- `handleDeleteNote` from CategoryView (the confirmed branch): filters
the note out and resets to `not_started` only when the resulting list is
empty and the category was not already `complete`; the `...category`
spread passes every field through. -/
def handleDeleteNote (cat : CategoryState) (noteId : String) : CategoryState :=
  let updatedNotes := cat.notes.filter (fun note => note.id != noteId)
  applyUpdate cat
    { idField := some cat.id, titleField := some cat.title
      statusField := some
        (if updatedNotes.length == 0 && !(cat.status == CategoryStatus.complete)
         then .not_started else cat.status)
      notesField := some updatedNotes
      dataField := some cat.data
      missingInfoField := some cat.missingInfo }

/-- Result of the `validateCategory` gateway call. -/
structure ValidationResult where
  isComplete : Bool
  missingInfo : List String
deriving DecidableEq

/-- `handleFinalize` from CategoryView, given the validator's result:
success sets `status` to `complete` and clears `missingInfo`; failure
only overwrites `missingInfo`, leaving `status` untouched. -/
def handleFinalize (cat : CategoryState) (result : ValidationResult) : CategoryState :=
  if result.isComplete then
    applyUpdate cat
      { idField := none, titleField := none, statusField := some .complete
        notesField := none, dataField := none, missingInfoField := some [] }
  else
    applyUpdate cat
      { idField := none, titleField := none, statusField := none
        notesField := none, dataField := none, missingInfoField := some result.missingInfo }

/-- Result of an extraction call (`processVoiceNote` / `processTextNote`). -/
structure ExtractResult where
  transcript : String
  updatedData : JsonData
deriving DecidableEq

/-- `handleAudioProcess` from CategoryView, given a successful extraction
result: the `NO_SPEECH_DETECTED` sentinel short-circuits with no state
change; otherwise `addNote` runs. -/
def handleAudioProcess (now : Nat) (cat : CategoryState) (result : ExtractResult) :
    CategoryState :=
  if result.transcript == "NO_SPEECH_DETECTED" then cat
  else addNote now cat result.transcript result.updatedData

/-- JavaScript `s.trim()`: strip leading and trailing whitespace
(modelled over the character list). -/
def strTrim (s : String) : String :=
  String.mk
    (((s.data.dropWhile fun c => c.isWhitespace).reverse.dropWhile
      fun c => c.isWhitespace).reverse)

/-- `handleTextSubmit` from CategoryView, given a successful extraction
result: blank input short-circuits; otherwise `addNote` runs
unconditionally — there is no sentinel check on this path. -/
def handleTextSubmit (now : Nat) (cat : CategoryState) (textInput : String)
    (result : ExtractResult) : CategoryState :=
  if strTrim textInput == "" then cat
  else addNote now cat result.transcript result.updatedData

/-- The Finalize button's `disabled` expression in CategoryView:
`!isAdditionalNotes && category.notes.length === 0 || isProcessing || isValidating`. -/
def finalizeButtonDisabled (cat : CategoryState) (isProcessing isValidating : Bool) : Bool :=
  (!(cat.id == CategoryId.additional_notes) && cat.notes.length == 0)
    || isProcessing || isValidating

/-- The category-level operations the CategoryView handlers feed through
`onUpdate`: a successful append (with its extraction payload and clock
reading), a note removal, and a finalize with the validator's verdict. -/
inductive CatOp where
  | append (text : String) (updatedData : JsonData) (now : Nat)
  | remove (noteId : String)
  | finalize (result : ValidationResult)

/-- One handler step on a category. -/
def stepCat (cat : CategoryState) : CatOp → CategoryState
  | .append text updatedData now => addNote now cat text updatedData
  | .remove noteId => handleDeleteNote cat noteId
  | .finalize result => handleFinalize cat result

/-- A sequence of handler steps. -/
def runCat (cat : CategoryState) (ops : List CatOp) : CategoryState :=
  ops.foldl stepCat cat

/-! ### Inference gateway (`src/unnamed/part_000`, aiService) -/

/-- A backend failure as the aiService sees it: an optional numeric code
(`error.error.code`) and a message. -/
structure ApiError where
  code : Option Nat
  message : String
deriving DecidableEq

/-- JavaScript `s.includes(pat)`: substring occurrence. -/
def containsSub (s pat : String) : Bool :=
  s.data.tails.any (fun t => pat.data.isPrefixOf t)

/-- JavaScript `s.toLowerCase()` (modelled over the character list). -/
def strToLower (s : String) : String :=
  String.mk (s.data.map Char.toLower)

/-- The rate-limit classifier inside `callWithRetry`:
`msg.includes("429") || msg.includes("quota") || error?.error?.code === 429`
on the lower-cased message. -/
def isRateLimitError (e : ApiError) : Bool :=
  let msg := strToLower e.message
  containsSub msg "429" || containsSub msg "quota" || e.code == some 429

/-- The user-facing errors thrown by `handleAIError`. -/
inductive UserError where
  | systemBusy
  | networkError
  | processingFailed
deriving DecidableEq

/-- `handleAIError`: quota / 429 becomes the "System Busy" message,
network / fetch becomes the network message, anything else the generic
processing failure. -/
def handleAIError (e : ApiError) : UserError :=
  let msg := strToLower e.message
  let isQuota := containsSub msg "quota" || containsSub msg "429"
    || containsSub msg "resource_exhausted" || containsSub msg "resource has been exhausted"
    || e.code == some 429
  if isQuota then .systemBusy
  else if containsSub msg "network" || containsSub msg "fetch" then .networkError
  else .processingFailed

/-- The `for (let i = 0; i < retries; i++)` loop of `callWithRetry`,
with the remaining iterations as structural fuel. Besides the outcome it
returns the number of backend attempts made and the list of backoff
delays (`1000 * Math.pow(2, i)`) slept between attempts. -/
def callWithRetryGo {α : Type} (fn : Nat → Except ApiError α) (retries : Nat) :
    Nat → Nat → List Nat → Except ApiError α × Nat × List Nat
  | 0, i, delays =>
    (Except.error { code := none, message := "Max retries exceeded" }, i, delays)
  | fuel + 1, i, delays =>
    match fn i with
    | Except.ok v => (Except.ok v, i + 1, delays)
    | Except.error e =>
      if isRateLimitError e && decide (i < retries - 1) then
        callWithRetryGo fn retries fuel (i + 1) (delays ++ [1000 * 2 ^ i])
      else (Except.error e, i + 1, delays)

deriving instance DecidableEq for Except

/-- `callWithRetry(fn, retries)`: the backend is an attempt-indexed stub. -/
def callWithRetry {α : Type} (fn : Nat → Except ApiError α) (retries : Nat) :
    Except ApiError α × Nat × List Nat :=
  callWithRetryGo fn retries retries 0 []

/-- `FieldReport` from `src/types.ts` (section payloads modelled flatly). -/
structure FieldReport where
  project_meta : JsonData
  env_safety : String
  survey_inventory : List (String × String)
  site_recording : String
  excavations : String
  finds : String
  condition_assessment : JsonData
  daily_log : String
deriving DecidableEq

/-- `processVoiceNote` (the extract operation): wraps the backend call in
`callWithRetry` with the default bound of 3 and maps a surfaced failure
through `handleAIError`. -/
def processVoiceNote (backend : Nat → Except ApiError ExtractResult) :
    Except UserError ExtractResult × Nat × List Nat :=
  let r := callWithRetry backend 3
  (r.1.mapError handleAIError, r.2)

/-- `processTextNote`: identical retry structure to `processVoiceNote`. -/
def processTextNote (backend : Nat → Except ApiError ExtractResult) :
    Except UserError ExtractResult × Nat × List Nat :=
  let r := callWithRetry backend 3
  (r.1.mapError handleAIError, r.2)

/-- `validateCategory` (the validate operation): same retry wrapper. -/
def validateCategory (backend : Nat → Except ApiError ValidationResult) :
    Except UserError ValidationResult × Nat × List Nat :=
  let r := callWithRetry backend 3
  (r.1.mapError handleAIError, r.2)

/-- `generateFinalJobReport` (the aggregate operation): same retry wrapper. -/
def generateFinalJobReport (backend : Nat → Except ApiError FieldReport) :
    Except UserError FieldReport × Nat × List Nat :=
  let r := callWithRetry backend 3
  (r.1.mapError handleAIError, r.2)

/-! ### Concrete fixtures used to instantiate the theorems -/

/-- A rate-limited backend failure (`error.error.code === 429`). -/
def rlError : ApiError := { code := some 429, message := "" }

/-- A non-retryable backend failure. -/
def hardError : ApiError := { code := none, message := "boom" }

/-- A sample successful extraction result. -/
def sampleExtract : ExtractResult := { transcript := "t", updatedData := [] }

/-- A sample accepting validation result. -/
def sampleValidation : ValidationResult := { isComplete := true, missingInfo := [] }

/-- A sample final report. -/
def emptyReport : FieldReport :=
  { project_meta := [], env_safety := "", survey_inventory := [], site_recording := ""
    excavations := "", finds := "", condition_assessment := [], daily_log := "" }

/-- A backend stub that rate-limits twice, then succeeds. -/
def stubExtractBackend : Nat → Except ApiError ExtractResult :=
  fun n => if n < 2 then .error rlError else .ok sampleExtract

/-- A validation backend stub that rate-limits twice, then succeeds. -/
def stubValidateBackend : Nat → Except ApiError ValidationResult :=
  fun n => if n < 2 then .error rlError else .ok sampleValidation

/-- A report backend stub that rate-limits twice, then succeeds. -/
def stubReportBackend : Nat → Except ApiError FieldReport :=
  fun n => if n < 2 then .error rlError else .ok emptyReport

/-- A backend stub that always fails with a non-retryable error. -/
def stubFailBackend : Nat → Except ApiError ExtractResult :=
  fun _ => .error hardError

/-- A sample note. -/
def sampleNote : Note := { id := "1", text := "n", timestamp := 1 }

/-- A sample in-progress category holding one note. -/
def sampleInProgressCat : CategoryState :=
  { id := .finds, title := "Finds & Materials", status := .in_progress
    notes := [sampleNote], data := [("a", "b")], missingInfo := ["m"] }

/-- A sample complete category holding one note. -/
def sampleCompleteCat : CategoryState :=
  { id := .finds, title := "Finds & Materials", status := .complete
    notes := [sampleNote], data := [("a", "b")], missingInfo := [] }

/-- The seven required category identifiers. -/
def requiredIds : List CategoryId :=
  [.project_details, .env_safety, .survey_inventory, .site_recording,
   .excavations, .finds, .condition_followup]

/-- The job state reached from the initial state by marking each required
category `complete` through `handleUpdateCategory`. -/
def allRequiredCompleteState : JobState :=
  requiredIds.foldl
    (fun s i => handleUpdateCategory s i (statusUpdate .complete)) INITIAL_JOB_STATE

/-! ### Shared lemmas -/

/-- Reading the categories record after writing one key. -/
theorem Categories.get_set (c : Categories) (i j : CategoryId) (x : CategoryState) :
    (c.set i x).get j = if j = i then x else c.get j := by
  cases i <;> cases j <;> simp [Categories.get, Categories.set]

/-- The retry loop makes at most `i + fuel` attempts. -/
theorem callWithRetryGo_attempts_le {α : Type} (fn : Nat → Except ApiError α)
    (retries : Nat) :
    ∀ (fuel i : Nat) (ds : List Nat), (callWithRetryGo fn retries fuel i ds).2.1 ≤ i + fuel := by
  intro fuel
  induction fuel with
  | zero => intro i ds; simp [callWithRetryGo]
  | succ n ih =>
    intro i ds
    simp only [callWithRetryGo]
    cases h : fn i with
    | ok v => simp
    | error e =>
      by_cases hc : (isRateLimitError e && decide (i < retries - 1)) = true
      · simp only [hc, if_true]
        exact le_trans (ih (i + 1) (ds ++ [1000 * 2 ^ i])) (by omega)
      · simp only [Bool.not_eq_true] at hc
        simp [hc]

/-- With all entries keyed by their own id, the Dashboard check
`allComplete` holds exactly when every required category is complete. -/
theorem allComplete_true_iff (s : JobState) (h : idsIntact s) :
    allComplete s = true ↔
      ∀ i : CategoryId, i ≠ CategoryId.additional_notes →
        (s.categories.get i).status = CategoryStatus.complete := by
  have h1 := h .project_details
  have h2 := h .env_safety
  have h3 := h .survey_inventory
  have h4 := h .site_recording
  have h5 := h .excavations
  have h6 := h .finds
  have h7 := h .condition_followup
  have h8 := h .additional_notes
  simp only [Categories.get] at h1 h2 h3 h4 h5 h6 h7 h8
  simp only [allComplete, requiredCategories, categoriesList, List.filter, List.all,
    h1, h2, h3, h4, h5, h6, h7, h8]
  simp only [Categories.get]
  constructor
  · intro H i hi
    simp at H
    cases i <;> simp_all
  · intro H
    simp
    exact ⟨H .project_details (by decide), H .env_safety (by decide),
           H .survey_inventory (by decide), H .site_recording (by decide),
           H .excavations (by decide), H .finds (by decide),
           H .condition_followup (by decide)⟩

/-- One handler step keeps notes empty in a `not_started` category. -/
theorem stepCat_notStarted_notes (cat : CategoryState) (op : CatOp)
    (h : cat.status = CategoryStatus.not_started → cat.notes = []) :
    (stepCat cat op).status = CategoryStatus.not_started → (stepCat cat op).notes = [] := by
  cases op with
  | append t d now => simp [stepCat, addNote, applyUpdate]
  | remove nid =>
    simp only [stepCat, handleDeleteNote, applyUpdate, Option.getD_some]
    by_cases hc :
      ((cat.notes.filter fun note => note.id != nid).length == 0
        && !(cat.status == CategoryStatus.complete)) = true
    · intro _
      simp only [Bool.and_eq_true, beq_iff_eq, List.length_eq_zero] at hc
      exact hc.1
    · simp only [hc, if_neg, Bool.false_eq_true, if_false]
      intro hs
      rw [h hs]
      simp
  | finalize r =>
    by_cases hr : r.isComplete = true
    · simp [stepCat, handleFinalize, hr, applyUpdate]
    · simp only [Bool.not_eq_true] at hr
      simp [stepCat, handleFinalize, hr, applyUpdate]
      exact h

/-! ### C1 -/

/-- C1, counterexample: driving every required category to `complete`
through `handleUpdateCategory` leaves `isJobComplete` at `false` even
though all seven required categories are `complete` — the attribute is
never recomputed, so it is not true iff all required categories are
complete. -/
theorem isJobComplete_claim_cex :
    allComplete allRequiredCompleteState = true ∧
    allRequiredCompleteState.isJobComplete = false := by decide

/-- C1, amended: `handleUpdateCategory` never recomputes the stored
`isJobComplete` attribute (it is carried over unchanged by every
update); the all-required-complete condition is instead derived by the
Dashboard as `allComplete`, which (for states whose entries carry their
own key) is true iff all seven required categories are `complete`, and
setting any one required category's status away from `complete` makes
it false. -/
theorem updateCategory_jobComplete_spec (s : JobState) (i : CategoryId)
    (u : CategoryUpdate) (st : CategoryStatus) (h : idsIntact s) :
    ((handleUpdateCategory s i u).isJobComplete = s.isJobComplete) ∧
    (allComplete s = true ↔
      ∀ j : CategoryId, j ≠ CategoryId.additional_notes →
        (s.categories.get j).status = CategoryStatus.complete) ∧
    (i ≠ CategoryId.additional_notes → st ≠ CategoryStatus.complete →
      allComplete (handleUpdateCategory s i (statusUpdate st)) = false) := by
  refine ⟨rfl, allComplete_true_iff s h, ?_⟩
  intro hi hst
  have hintact : idsIntact (handleUpdateCategory s i (statusUpdate st)) := by
    intro j
    simp only [handleUpdateCategory, Categories.get_set]
    by_cases hj : j = i
    · subst hj
      simp only [if_pos rfl, applyUpdate, statusUpdate, Option.getD_none]
      exact h j
    · simp only [if_neg hj]
      exact h j
  have hstatus :
      ((handleUpdateCategory s i (statusUpdate st)).categories.get i).status = st := by
    simp [handleUpdateCategory, Categories.get_set, applyUpdate, statusUpdate]
  cases hac : allComplete (handleUpdateCategory s i (statusUpdate st)) with
  | false => rfl
  | true =>
    have := (allComplete_true_iff _ hintact).mp hac i hi
    rw [hstatus] at this
    exact absurd this hst

/-- C1, witness of the amended claim at the initial state. -/
theorem updateCategory_jobComplete_spec_inst :
    ((handleUpdateCategory INITIAL_JOB_STATE .finds
        (statusUpdate .complete)).isJobComplete = INITIAL_JOB_STATE.isJobComplete) ∧
    (allComplete INITIAL_JOB_STATE = true ↔
      ∀ j : CategoryId, j ≠ CategoryId.additional_notes →
        (INITIAL_JOB_STATE.categories.get j).status = CategoryStatus.complete) ∧
    allComplete (handleUpdateCategory INITIAL_JOB_STATE .finds
      (statusUpdate .in_progress)) = false := by
  have h := updateCategory_jobComplete_spec INITIAL_JOB_STATE .finds
    (statusUpdate .complete) .in_progress (by intro j; cases j <;> rfl)
  exact ⟨h.1, h.2.1, h.2.2 (by decide) (by decide)⟩

/-! ### C2 -/

/-- C2: each gateway operation (`processVoiceNote` = extract,
`validateCategory` = validate, `generateFinalJobReport` = aggregate),
run against a backend that rate-limits on the first two attempts and
succeeds on the third, succeeds on the third attempt with backoff delays
doubling (1000ms then 2000ms); no backend is ever attempted more than 3
times; and a non-rate-limit first failure is surfaced immediately after
a single attempt with no backoff. -/
theorem gateway_retry_spec (e1 e2 e3 : ApiError) (vE : ExtractResult)
    (vV : ValidationResult) (vR : FieldReport)
    (bE : Nat → Except ApiError ExtractResult)
    (bV : Nat → Except ApiError ValidationResult)
    (bR : Nat → Except ApiError FieldReport)
    (h1 : isRateLimitError e1 = true) (h2 : isRateLimitError e2 = true)
    (hE0 : bE 0 = .error e1) (hE1 : bE 1 = .error e2) (hE2 : bE 2 = .ok vE)
    (hV0 : bV 0 = .error e1) (hV1 : bV 1 = .error e2) (hV2 : bV 2 = .ok vV)
    (hR0 : bR 0 = .error e1) (hR1 : bR 1 = .error e2) (hR2 : bR 2 = .ok vR)
    (h3 : isRateLimitError e3 = false) :
    processVoiceNote bE = (.ok vE, 3, [1000, 2000]) ∧
    validateCategory bV = (.ok vV, 3, [1000, 2000]) ∧
    generateFinalJobReport bR = (.ok vR, 3, [1000, 2000]) ∧
    (∀ b : Nat → Except ApiError ExtractResult, (processVoiceNote b).2.1 ≤ 3) ∧
    (∀ b : Nat → Except ApiError ValidationResult, (validateCategory b).2.1 ≤ 3) ∧
    (∀ b : Nat → Except ApiError FieldReport, (generateFinalJobReport b).2.1 ≤ 3) ∧
    (∀ b : Nat → Except ApiError ExtractResult, b 0 = .error e3 →
      processVoiceNote b = (.error (handleAIError e3), 1, [])) ∧
    (∀ b : Nat → Except ApiError ValidationResult, b 0 = .error e3 →
      validateCategory b = (.error (handleAIError e3), 1, [])) ∧
    (∀ b : Nat → Except ApiError FieldReport, b 0 = .error e3 →
      generateFinalJobReport b = (.error (handleAIError e3), 1, [])) := by
  refine ⟨?_, ?_, ?_, ?_, ?_, ?_, ?_, ?_, ?_⟩
  · simp [processVoiceNote, callWithRetry, callWithRetryGo, hE0, hE1, hE2, h1, h2,
      Except.mapError]
  · simp [validateCategory, callWithRetry, callWithRetryGo, hV0, hV1, hV2, h1, h2,
      Except.mapError]
  · simp [generateFinalJobReport, callWithRetry, callWithRetryGo, hR0, hR1, hR2, h1, h2,
      Except.mapError]
  · intro b
    exact le_trans (callWithRetryGo_attempts_le b 3 3 0 []) (by omega)
  · intro b
    exact le_trans (callWithRetryGo_attempts_le b 3 3 0 []) (by omega)
  · intro b
    exact le_trans (callWithRetryGo_attempts_le b 3 3 0 []) (by omega)
  · intro b hb
    simp [processVoiceNote, callWithRetry, callWithRetryGo, hb, h3, Except.mapError]
  · intro b hb
    simp [validateCategory, callWithRetry, callWithRetryGo, hb, h3, Except.mapError]
  · intro b hb
    simp [generateFinalJobReport, callWithRetry, callWithRetryGo, hb, h3, Except.mapError]

/-- C2, witness at the concrete backend stubs. -/
theorem gateway_retry_spec_inst :
    processVoiceNote stubExtractBackend = (.ok sampleExtract, 3, [1000, 2000]) ∧
    validateCategory stubValidateBackend = (.ok sampleValidation, 3, [1000, 2000]) ∧
    generateFinalJobReport stubReportBackend = (.ok emptyReport, 3, [1000, 2000]) ∧
    (processVoiceNote stubExtractBackend).2.1 ≤ 3 ∧
    processVoiceNote stubFailBackend = (.error .processingFailed, 1, []) := by
  have h := gateway_retry_spec rlError rlError hardError sampleExtract sampleValidation
    emptyReport stubExtractBackend stubValidateBackend stubReportBackend
    (by decide) (by decide) rfl rfl rfl rfl rfl rfl rfl rfl rfl (by decide)
  refine ⟨h.1, h.2.1, h.2.2.1, h.2.2.2.1 stubExtractBackend, ?_⟩
  have h9 := h.2.2.2.2.2.2.1 stubFailBackend rfl
  have he : handleAIError hardError = .processingFailed := by decide
  rw [he] at h9
  exact h9

/-! ### C3 -/

/-- C3, counterexample: appending a note (which stores extracted data)
and then removing it returns the category to `not_started` with its
`data` record still holding the extracted values — `not_started` does
not imply an empty `data` record. -/
theorem not_started_data_cex :
    (runCat INITIAL_JOB_STATE.categories.finds
      [CatOp.append "Found one obsidian flake" [("item_type", "lithic")] 5,
       CatOp.remove "5"]).status = CategoryStatus.not_started ∧
    (runCat INITIAL_JOB_STATE.categories.finds
      [CatOp.append "Found one obsidian flake" [("item_type", "lithic")] 5,
       CatOp.remove "5"]).data ≠ [] := by decide

/-- C3, amended: along every sequence of append/remove/finalize
operations from a category whose `not_started` state has empty notes,
`status = not_started` implies the `notes` list is empty; the `data`
record, however, is not reset by note removal and can be non-empty in a
`not_started` category. -/
theorem not_started_notes_empty (cat : CategoryState) (ops : List CatOp)
    (h : cat.status = CategoryStatus.not_started → cat.notes = []) :
    (runCat cat ops).status = CategoryStatus.not_started → (runCat cat ops).notes = [] := by
  induction ops generalizing cat with
  | nil => exact h
  | cons op ops ih =>
    exact ih (stepCat cat op) (stepCat_notStarted_notes cat op h)

/-- C3, witness of the amended claim on a concrete run ending in
`not_started`. -/
theorem not_started_notes_empty_inst :
    (runCat INITIAL_JOB_STATE.categories.finds
      [CatOp.append "x" [] 5, CatOp.remove "5"]).notes = [] :=
  not_started_notes_empty INITIAL_JOB_STATE.categories.finds
    [CatOp.append "x" [] 5, CatOp.remove "5"] (by decide) (by decide)

/-! ### C4 -/

/-- C4, counterexample: finalizing a category (making it `complete` with
empty `missingInfo`) and then finalizing again with a validator verdict
of incomplete leaves `status = complete` while `missingInfo` becomes
non-empty — the invariant does not survive a failed validation of an
already-complete category. -/
theorem complete_missingInfo_cex :
    (runCat INITIAL_JOB_STATE.categories.finds
      [CatOp.append "x" [("a", "b")] 5,
       CatOp.finalize { isComplete := true, missingInfo := [] },
       CatOp.finalize { isComplete := false, missingInfo := ["material"] }]).status
      = CategoryStatus.complete ∧
    (runCat INITIAL_JOB_STATE.categories.finds
      [CatOp.append "x" [("a", "b")] 5,
       CatOp.finalize { isComplete := true, missingInfo := [] },
       CatOp.finalize { isComplete := false, missingInfo := ["material"] }]).missingInfo
      = ["material"] := by decide

/-- C4, amended: `status = complete → missingInfo = []` is preserved by
every append and remove, and by every finalize except one whose
validation fails while the category is already `complete` (that one
operation overwrites `missingInfo` with the validator's non-empty list
while leaving `status` at `complete`). -/
theorem complete_missingInfo_step (cat : CategoryState) (op : CatOp)
    (h : cat.status = CategoryStatus.complete → cat.missingInfo = [])
    (hop : ∀ r : ValidationResult, op = CatOp.finalize r →
      r.isComplete = true ∨ cat.status ≠ CategoryStatus.complete) :
    (stepCat cat op).status = CategoryStatus.complete →
      (stepCat cat op).missingInfo = [] := by
  cases op with
  | append t d now => simp [stepCat, addNote, applyUpdate]
  | remove nid =>
    simp only [stepCat, handleDeleteNote, applyUpdate, Option.getD_some]
    by_cases hc :
      ((cat.notes.filter fun note => note.id != nid).length == 0
        && !(cat.status == CategoryStatus.complete)) = true
    · simp [hc]
    · simp [hc]
      exact h
  | finalize r =>
    by_cases hr : r.isComplete = true
    · simp [stepCat, handleFinalize, hr, applyUpdate]
    · simp only [Bool.not_eq_true] at hr
      simp only [stepCat, handleFinalize, hr, Bool.false_eq_true, if_false, applyUpdate,
        Option.getD_none, Option.getD_some]
      intro hs
      rcases hop r rfl with h1 | h2
      · rw [h1] at hr; cases hr
      · exact absurd hs h2

/-- C4, witness of the amended claim at a concrete step ending in
`complete`. -/
theorem complete_missingInfo_step_inst :
    (stepCat sampleCompleteCat (CatOp.remove "1")).missingInfo = [] :=
  complete_missingInfo_step sampleCompleteCat (CatOp.remove "1") (by decide)
    (fun r hr => CatOp.noConfusion hr) (by decide)

/-! ### C5 -/

/-- C5: `addNote` pushes a note carrying the current clock reading as
its id and timestamp to the end of the note sequence (all prior notes
unchanged, in order), fully replaces `data`, forces `status` to
`in_progress` whatever it was, leaves the other fields alone, and —
whenever no existing note already carries the current clock string —
the new id is fresh. -/
theorem addNote_spec (cat : CategoryState) (text : String) (d : JsonData) (now : Nat)
    (h : ∀ n ∈ cat.notes, n.id ≠ toString now) :
    (addNote now cat text d).notes
        = cat.notes ++ [{ id := toString now, text := text, timestamp := now }] ∧
    (addNote now cat text d).data = d ∧
    (addNote now cat text d).status = CategoryStatus.in_progress ∧
    (addNote now cat text d).id = cat.id ∧
    (addNote now cat text d).title = cat.title ∧
    (addNote now cat text d).missingInfo = cat.missingInfo ∧
    ∀ n ∈ cat.notes, n.id ≠ (Note.mk (toString now) text now).id :=
  ⟨rfl, rfl, rfl, rfl, rfl, rfl, h⟩

/-- C5, witness at a concrete category and clock. -/
theorem addNote_spec_inst :
    (addNote 7 sampleInProgressCat "txt" [("k", "v")]).notes
        = sampleInProgressCat.notes ++ [{ id := toString 7, text := "txt", timestamp := 7 }] ∧
    (addNote 7 sampleInProgressCat "txt" [("k", "v")]).data = [("k", "v")] ∧
    (addNote 7 sampleInProgressCat "txt" [("k", "v")]).status = CategoryStatus.in_progress :=
  have h := addNote_spec sampleInProgressCat "txt" [("k", "v")] 7 (by decide)
  ⟨h.1, h.2.1, h.2.2.1⟩

/-! ### C6 -/

/-- C6: for a category holding exactly one note, deleting that note
keeps `status = complete` if the category was complete, and resets
`status` to `not_started` if it was `in_progress`; moreover deletion of
any note id never moves a `complete` category to another status. -/
theorem deleteNote_lastNote_spec (cat : CategoryState) (n : Note)
    (hn : cat.notes = [n]) :
    (cat.status = CategoryStatus.complete →
      (handleDeleteNote cat n.id).status = CategoryStatus.complete) ∧
    (cat.status = CategoryStatus.in_progress →
      (handleDeleteNote cat n.id).status = CategoryStatus.not_started) ∧
    (∀ noteId : String, cat.status = CategoryStatus.complete →
      (handleDeleteNote cat noteId).status = CategoryStatus.complete) := by
  refine ⟨?_, ?_, ?_⟩
  · intro hs
    simp [handleDeleteNote, applyUpdate, hs]
  · intro hs
    simp [handleDeleteNote, applyUpdate, hn, hs]
  · intro noteId hs
    simp [handleDeleteNote, applyUpdate, hs]

/-- C6, witness at concrete one-note categories. -/
theorem deleteNote_lastNote_spec_inst :
    (handleDeleteNote sampleCompleteCat sampleNote.id).status = CategoryStatus.complete ∧
    (handleDeleteNote sampleInProgressCat sampleNote.id).status
      = CategoryStatus.not_started := by
  have hc := deleteNote_lastNote_spec sampleCompleteCat sampleNote rfl
  have hi := deleteNote_lastNote_spec sampleInProgressCat sampleNote rfl
  exact ⟨hc.1 rfl, hi.2.1 rfl⟩

/-! ### C7 -/

/-- C7, counterexample: `handleFinalize` performs no empty-notes check —
invoked on the required `project_details` category with zero notes it
proceeds straight to validation, and with an accepting validator verdict
it sets `status = complete` instead of failing with any
precondition-violation error (and with a rejecting verdict it stores the
validator's `missingInfo`, confirming the validation call happens). -/
theorem finalize_empty_cex :
    (handleFinalize INITIAL_JOB_STATE.categories.project_details
      { isComplete := true, missingInfo := [] }).status = CategoryStatus.complete ∧
    (handleFinalize INITIAL_JOB_STATE.categories.project_details
      { isComplete := false, missingInfo := ["Monitor Name"] }).missingInfo
      = ["Monitor Name"] := by decide

/-- C7, amended: the rejection of empty-notes finalization for required
categories is implemented as UI gating only — the Finalize button's
`disabled` condition is true for every required category with an empty
note list (so no validation can be initiated) and false for the empty
optional `additional_notes` category, which can therefore be finalized
empty and succeeds (`status` becomes `complete`) when the validator
accepts; `handleFinalize` itself raises no `PreconditionViolation`. -/
theorem finalize_empty_gating (cat : CategoryState) (h : cat.notes = []) :
    (cat.id ≠ CategoryId.additional_notes →
      finalizeButtonDisabled cat false false = true) ∧
    (cat.id = CategoryId.additional_notes →
      finalizeButtonDisabled cat false false = false) ∧
    (∀ r : ValidationResult, r.isComplete = true →
      (handleFinalize cat r).status = CategoryStatus.complete ∧
      (handleFinalize cat r).missingInfo = []) := by
  refine ⟨?_, ?_, ?_⟩
  · intro hid
    simp [finalizeButtonDisabled, h, hid]
  · intro hid
    simp [finalizeButtonDisabled, hid]
  · intro r hr
    simp [handleFinalize, hr, applyUpdate]

/-- C7, witness: gating at the initial optional and required categories. -/
theorem finalize_empty_gating_inst :
    finalizeButtonDisabled INITIAL_JOB_STATE.categories.additional_notes false false
      = false ∧
    (handleFinalize INITIAL_JOB_STATE.categories.additional_notes
      { isComplete := true, missingInfo := [] }).status = CategoryStatus.complete ∧
    finalizeButtonDisabled INITIAL_JOB_STATE.categories.project_details false false
      = true := by
  have ha := finalize_empty_gating INITIAL_JOB_STATE.categories.additional_notes rfl
  have hp := finalize_empty_gating INITIAL_JOB_STATE.categories.project_details rfl
  exact ⟨ha.2.1 rfl, (ha.2.2 { isComplete := true, missingInfo := [] } rfl).1,
    hp.1 (by decide)⟩

/-! ### C8 -/

/-- C8, counterexample: the text-note path has no sentinel check — an
extraction result whose transcript is `NO_SPEECH_DETECTED` still creates
a note and moves the category to `in_progress` when submitted as text,
contradicting the claim for text input. -/
theorem textSubmit_sentinel_cex :
    (handleTextSubmit 7 INITIAL_JOB_STATE.categories.finds "hello"
      { transcript := "NO_SPEECH_DETECTED", updatedData := [("k", "v")] }).notes.length
      = 1 ∧
    (handleTextSubmit 7 INITIAL_JOB_STATE.categories.finds "hello"
      { transcript := "NO_SPEECH_DETECTED", updatedData := [("k", "v")] }).status
      = CategoryStatus.in_progress := by decide

/-- C8, amended: the `NO_SPEECH_DETECTED` sentinel is honoured only on
the voice path — there `handleAudioProcess` leaves the category
untouched on the sentinel and otherwise appends a note and moves to
`in_progress`; the text path (`handleTextSubmit`, on non-blank input)
appends a note and moves to `in_progress` for every successful
extraction result, the sentinel included. -/
theorem sentinel_voice_only (now : Nat) (cat : CategoryState) (result : ExtractResult) :
    (result.transcript = "NO_SPEECH_DETECTED" →
      handleAudioProcess now cat result = cat) ∧
    (result.transcript ≠ "NO_SPEECH_DETECTED" →
      (handleAudioProcess now cat result).notes
          = cat.notes ++ [{ id := toString now, text := result.transcript, timestamp := now }] ∧
      (handleAudioProcess now cat result).status = CategoryStatus.in_progress) ∧
    (∀ textInput : String, strTrim textInput ≠ "" →
      (handleTextSubmit now cat textInput result).notes
          = cat.notes ++ [{ id := toString now, text := result.transcript, timestamp := now }] ∧
      (handleTextSubmit now cat textInput result).status = CategoryStatus.in_progress) := by
  refine ⟨?_, ?_, ?_⟩
  · intro hs
    simp [handleAudioProcess, hs]
  · intro hs
    simp [handleAudioProcess, hs, addNote, applyUpdate]
  · intro textInput ht
    simp [handleTextSubmit, ht, addNote, applyUpdate]

/-- C8, witness at a concrete category, sentinel result and text input. -/
theorem sentinel_voice_only_inst :
    handleAudioProcess 7 INITIAL_JOB_STATE.categories.finds
      { transcript := "NO_SPEECH_DETECTED", updatedData := [("k", "v")] }
      = INITIAL_JOB_STATE.categories.finds ∧
    (handleTextSubmit 7 INITIAL_JOB_STATE.categories.finds "hi"
      { transcript := "NO_SPEECH_DETECTED", updatedData := [] }).status
      = CategoryStatus.in_progress := by
  have h1 := sentinel_voice_only 7 INITIAL_JOB_STATE.categories.finds
    { transcript := "NO_SPEECH_DETECTED", updatedData := [("k", "v")] }
  have h2 := sentinel_voice_only 7 INITIAL_JOB_STATE.categories.finds
    { transcript := "NO_SPEECH_DETECTED", updatedData := [] }
  exact ⟨h1.1 rfl, (h2.2.2 "hi" (by decide)).2⟩

/-! ### C9 -/

/-- C9, counterexample: deleting a note id that is not in the list is a
silent no-op — `handleDeleteNote` returns the category completely
unchanged and has no error outcome at all, so no `NotFound` error is
reported to the caller. -/
theorem deleteNote_unknown_cex :
    handleDeleteNote sampleInProgressCat "2" = sampleInProgressCat := by decide

/-- C9, amended: `remove` with an id absent from the category's notes
silently leaves the category unchanged — notes, data, status and
missingInfo all keep their values (for any category that has notes, or
whose status is not `in_progress`) — and no error of any kind is
produced, the handler's only channel being the returned update. -/
theorem deleteNote_unknown_noop (cat : CategoryState) (noteId : String)
    (h : ∀ n ∈ cat.notes, n.id ≠ noteId)
    (h2 : cat.notes ≠ [] ∨ cat.status ≠ CategoryStatus.in_progress) :
    handleDeleteNote cat noteId = cat := by
  have hfilter : cat.notes.filter (fun note => note.id != noteId) = cat.notes := by
    rw [List.filter_eq_self]
    intro a ha
    simp [h a ha]
  simp only [handleDeleteNote, hfilter, applyUpdate, Option.getD_some]
  rcases h2 with h2 | h2
  · have hlen : (cat.notes.length == 0) = false := by
      simp [List.length_eq_zero]
      exact h2
    simp [hlen]
  · cases hs : cat.status with
    | not_started => simp [hs]; rw [← hs]
    | in_progress => exact absurd hs h2
    | complete => simp [hs]; rw [← hs]

/-- C9, witness at a concrete category and unknown id. -/
theorem deleteNote_unknown_noop_inst :
    handleDeleteNote sampleCompleteCat "99" = sampleCompleteCat :=
  deleteNote_unknown_noop sampleCompleteCat "99" (by decide) (by decide)

/-! ### C10 -/

/-- C10: `handleUpdateCategory` is frame-preserving — it keeps
`isJobComplete`, leaves the `CategoryState` of every other category id
untouched, and inside the updated category every field whose key is
absent from the partial update keeps its prior value. -/
theorem updateCategory_frame (s : JobState) (i : CategoryId) (u : CategoryUpdate) :
    ((handleUpdateCategory s i u).isJobComplete = s.isJobComplete) ∧
    (∀ j : CategoryId, j ≠ i →
      (handleUpdateCategory s i u).categories.get j = s.categories.get j) ∧
    (u.idField = none →
      ((handleUpdateCategory s i u).categories.get i).id = (s.categories.get i).id) ∧
    (u.titleField = none →
      ((handleUpdateCategory s i u).categories.get i).title = (s.categories.get i).title) ∧
    (u.statusField = none →
      ((handleUpdateCategory s i u).categories.get i).status = (s.categories.get i).status) ∧
    (u.notesField = none →
      ((handleUpdateCategory s i u).categories.get i).notes = (s.categories.get i).notes) ∧
    (u.dataField = none →
      ((handleUpdateCategory s i u).categories.get i).data = (s.categories.get i).data) ∧
    (u.missingInfoField = none →
      ((handleUpdateCategory s i u).categories.get i).missingInfo
        = (s.categories.get i).missingInfo) := by
  have hget : (handleUpdateCategory s i u).categories.get i
      = applyUpdate (s.categories.get i) u := by
    simp [handleUpdateCategory, Categories.get_set]
  refine ⟨rfl, ?_, ?_, ?_, ?_, ?_, ?_, ?_⟩
  · intro j hj
    simp [handleUpdateCategory, Categories.get_set, hj]
  · intro hn; rw [hget]; simp [applyUpdate, hn]
  · intro hn; rw [hget]; simp [applyUpdate, hn]
  · intro hn; rw [hget]; simp [applyUpdate, hn]
  · intro hn; rw [hget]; simp [applyUpdate, hn]
  · intro hn; rw [hget]; simp [applyUpdate, hn]
  · intro hn; rw [hget]; simp [applyUpdate, hn]

/-- C10, witness at the initial state and a status-only update. -/
theorem updateCategory_frame_inst :
    (handleUpdateCategory INITIAL_JOB_STATE .finds
      (statusUpdate .complete)).categories.get .env_safety
      = INITIAL_JOB_STATE.categories.get .env_safety ∧
    ((handleUpdateCategory INITIAL_JOB_STATE .finds
      (statusUpdate .complete)).categories.get .finds).title
      = (INITIAL_JOB_STATE.categories.get .finds).title := by
  have h := updateCategory_frame INITIAL_JOB_STATE .finds (statusUpdate .complete)
  exact ⟨h.2.1 .env_safety (by decide), h.2.2.2.1 rfl⟩

end FCS
